import Mathlib

/-!
Shallow embedding of the ios-simulator-cli (sim-cli) TypeScript sources.
Each definition mirrors one function of the repository; external effects
(spawned processes, filesystem queries, environment variables) are made
explicit as inputs and outputs.
-/

namespace SimCli

/-! JavaScript string helpers.  `strIncludes s pat` mirrors
`s.includes(pat)`; `jsTruthy` mirrors the truthiness test used on
optional string values (undefined and the empty string are falsy). -/

def jsTruthy : Option String → Option String
  | none => none
  | some s => if s = "" then none else some s

def headMatch : List Char → List Char → Bool
  | [], _ => true
  | _ :: _, [] => false
  | p :: ps, c :: cs => p == c && headMatch ps cs

def occursIn (pat : List Char) : List Char → Bool
  | [] => pat.isEmpty
  | c :: cs => headMatch pat (c :: cs) || occursIn pat cs

def strIncludes (s pat : String) : Bool := occursIn pat.toList s.toList

/-- Split a character list at every occurrence of `sep`; mirrors
`String.prototype.split` with a one-character separator. -/
def splitCharGo (sep : Char) : List Char → List Char → List (List Char)
  | cur, [] => [cur.reverse]
  | cur, c :: rest =>
    if c == sep then cur.reverse :: splitCharGo sep [] rest
    else splitCharGo sep (c :: cur) rest

def splitChar (sep : Char) (cs : List Char) : List (List Char) :=
  splitCharGo sep [] cs

/-- ASCII lowering of a string, mirroring `toLowerCase` on the ASCII
inputs this CLI accepts. -/
def jsToLower (cs : List Char) : List Char := cs.map Char.toLower

/-! Error model: `ErrorCode` mirrors the numeric enum of
`utils/error-handler.ts`, `SimulatorError` the exception class
(absent `suggestions` is modelled as the empty list, matching the
`?? []` read in `handleError`). -/

inductive ErrorCode
  | success
  | generalError
  | invalidArguments
  | simulatorNotFound
  | timeout
  | permissionDenied
  | fileNotFound
  | commandNotFound
deriving DecidableEq, Repr

def ErrorCode.toNat : ErrorCode → Nat
  | .success => 0
  | .generalError => 1
  | .invalidArguments => 2
  | .simulatorNotFound => 3
  | .timeout => 4
  | .permissionDenied => 5
  | .fileNotFound => 6
  | .commandNotFound => 127

structure SimulatorError where
  message : String
  code : ErrorCode
  suggestions : List String
deriving DecidableEq, Repr

/-- The kinds of value that can reach `handleError`: a `SimulatorError`,
a Zod validation error (a list of path/message issues), any other
`Error` (carrying only its message), or a non-Error value. -/
inductive JsError
  | sim (e : SimulatorError)
  | zod (issues : List (String × String))
  | err (message : String)
  | nonError
deriving DecidableEq, Repr

structure ErrorReport where
  exitCode : ErrorCode
  message : String
  suggestions : List String
deriving DecidableEq, Repr

/-- Classification performed by `handleError` in
`utils/error-handler.ts` (lines 174-221): exit code, message and
remediation suggestions chosen from the error value.  The process-exit
and printing side effects are not modelled; the report carries
everything they consume. -/
def handleError : JsError → ErrorReport
  | .sim e => ⟨e.code, e.message, e.suggestions⟩
  | .zod issues =>
    ⟨.invalidArguments, "Invalid arguments provided",
      issues.map (fun i => "  • " ++ i.1 ++ ": " ++ i.2)⟩
  | .err message =>
    if strIncludes message "No booted simulator" then
      ⟨.simulatorNotFound, message,
        ["Open Simulator.app", "Run: sim-cli open", "Specify a device: --device <udid>"]⟩
    else if strIncludes message "timed out" then
      ⟨.timeout, message,
        ["Increase timeout with --timeout flag", "Check if simulator is responsive"]⟩
    else if strIncludes message "EACCES" || strIncludes message "permission denied" then
      ⟨.permissionDenied, message,
        ["Check file/directory permissions",
         "Ensure Xcode command line tools are installed",
         "Try: xcode-select --install"]⟩
    else if strIncludes message "ENOENT" || strIncludes message "not found" then
      ⟨.fileNotFound, message, []⟩
    else if strIncludes message "command not found" then
      ⟨.commandNotFound, message,
        ["Ensure all dependencies are installed",
         "Check that idb is installed: brew install facebook/fb/idb-companion",
         "Verify Xcode installation"]⟩
    else
      ⟨.generalError, message, []⟩
  | .nonError => ⟨.generalError, "An unexpected error occurred", []⟩

/-! Validators from `utils/validator.ts`, translated from the Zod
schemas (each regex is rendered as an explicit character-list check). -/

def isHexDigit (c : Char) : Bool :=
  c.isDigit || ('a' ≤ c && c ≤ 'f') || ('A' ≤ c && c ≤ 'F')

/-- `UDID_REGEX`: 8-4-4-4-12 hexadecimal groups separated by dashes. -/
def validUDID (s : String) : Bool :=
  let parts := splitChar '-' s.toList
  parts.map List.length == [8, 4, 4, 4, 12] &&
  parts.all (fun p => p.all isHexDigit)

/-- `durationSchema` regex: one or more digits, optionally a dot and one
or more digits. -/
def durationOk (s : String) : Bool :=
  match splitChar '.' s.toList with
  | [a] => !a.isEmpty && a.all Char.isDigit
  | [a, b] => !a.isEmpty && a.all Char.isDigit && !b.isEmpty && b.all Char.isDigit
  | _ => false

def isPrintableAscii (c : Char) : Bool :=
  0x20 ≤ c.toNat && c.toNat ≤ 0x7E

/-- `textInputSchema`: length at most 500 and the regex
`[\x20-\x7E]+` anchored at both ends (so at least one character, all in
the ASCII printable range).  `parse` returns the input unchanged on
success and throws on failure, modelled as an `Option`. -/
def textInputParse (s : String) : Option String :=
  if s.length ≤ 500 && (!s.toList.isEmpty && s.toList.all isPrintableAscii) then
    some s
  else
    none

/-- `bundleIdSchema`: length at most 256 and the anchored regex
`[a-zA-Z0-9.-]+`. -/
def bundleIdChar (c : Char) : Bool :=
  c.isAlpha || c.isDigit || c == '.' || c == '-'

def bundleIdOk (s : String) : Bool :=
  s.length ≤ 256 && !s.toList.isEmpty && s.toList.all bundleIdChar

/-- `hardwareButtonSchema`: the fixed enumerated set of button names. -/
def hardwareButtons : List String :=
  ["home", "lock", "volume-up", "volume-down", "ringer", "power", "home+lock"]

/-! Device resolution, from `utils/device.ts`.  The parsed output of
`xcrun simctl list devices --json` is modelled as an association list
from runtime identifier to device records, preserving iteration
order. -/

structure DeviceRecord where
  name : String
  udid : String
  state : String
deriving DecidableEq, Repr

/-- The scan of `getBootedDevice` over the runtime map: first device in
iteration order whose `state` is `Booted`. -/
def findBooted : List (String × List DeviceRecord) → Option DeviceRecord
  | [] => none
  | (_, ds) :: rest =>
    match ds.find? (fun d => d.state == "Booted") with
    | some d => some d
    | none => findBooted rest

/-- `getBootedDevice` (`utils/device.ts` lines 17-57) on the parsed
device list: the booted device, or the `SimulatorError` thrown when no
device is booted.  The stdout/stderr plumbing and JSON parsing of the
external query are not modelled; the parsed list is the input. -/
def getBootedDevice (devices : List (String × List DeviceRecord)) :
    Except SimulatorError DeviceRecord :=
  match findBooted devices with
  | some d => .ok d
  | none =>
    .error ⟨"No simulator is currently booted", .simulatorNotFound,
      ["Open Simulator.app", "Run: sim-cli open", "Specify a device with --device <udid>"]⟩

/-- Ambient state consulted by `getDeviceId`: the `SIM_CLI_DEVICE`
environment variable and the device list the external query would
return. -/
structure DevEnv where
  envDevice : Option String
  devices : List (String × List DeviceRecord)

/-- Outcome of device resolution, together with whether the external
device-list query was issued. -/
structure Resolution where
  result : Except SimulatorError String
  queriedList : Bool

/-- `getDeviceId` (`utils/device.ts` lines 62-92): explicit argument if
truthy (validated as a UDID, returned as-is), else the `SIM_CLI_DEVICE`
environment variable (validated the same way), else the booted device
from the external list query. -/
def getDeviceId (providedId : Option String) (env : DevEnv) : Resolution :=
  match jsTruthy providedId with
  | some p =>
    if validUDID p then ⟨.ok p, false⟩
    else
      ⟨.error ⟨"Invalid device UDID format", .invalidArguments,
        ["UDID must be in format: XXXXXXXX-XXXX-XXXX-XXXX-XXXXXXXXXXXX"]⟩, false⟩
  | none =>
    match jsTruthy env.envDevice with
    | some v =>
      if validUDID v then ⟨.ok v, false⟩
      else
        ⟨.error ⟨"Invalid device UDID in SIM_CLI_DEVICE environment variable",
          .invalidArguments, []⟩, false⟩
    | none =>
      match getBootedDevice env.devices with
      | .ok d => ⟨.ok d.udid, true⟩
      | .error e => ⟨.error e, true⟩

/-! Commands are modelled as the ordered list of external process
invocations they issue plus their result.  Logging, spinners and the
outcome of the spawned process itself are not modelled. -/

structure Proc where
  cmd : String
  args : List String
deriving DecidableEq, Repr

/-- A failure surfaced by a command: a thrown `SimulatorError` or a Zod
validation error. -/
inductive Failure
  | sim (e : SimulatorError)
  | zod (message : String)
deriving DecidableEq, Repr

structure CmdOut where
  procs : List Proc
  result : Except Failure Unit

/-- The external query issued by `getBootedDevice`. -/
def listDevicesProc : Proc := ⟨"xcrun", ["simctl", "list", "devices", "--json"]⟩

def resolutionProcs (r : Resolution) : List Proc :=
  if r.queriedList then [listDevicesProc] else []

/-! UI commands, from `commands/ui.ts`. -/

/-- Argument vector built by `tap` (`commands/ui.ts` lines 30-41). -/
def tapArgs (deviceId : String) (x y : Nat) (duration : Option String) : List String :=
  ["ui", "tap", "--udid", deviceId, "--json"]
    ++ (match duration with | some d => ["--duration", d] | none => [])
    ++ ["--", toString x, toString y]

/-- `tap` (`commands/ui.ts` lines 20-58): resolve the device, validate
the optional duration, invoke the idb UI bridge. -/
def tapRun (x y : Nat) (duration : Option String) (providedDevice : Option String)
    (env : DevEnv) : CmdOut :=
  let r := getDeviceId providedDevice env
  let pre := resolutionProcs r
  match r.result with
  | .error e => ⟨pre, .error (.sim e)⟩
  | .ok deviceId =>
    match duration with
    | some d =>
      if durationOk d then ⟨pre ++ [⟨"idb", tapArgs deviceId x y (some d)⟩], .ok ()⟩
      else ⟨pre, .error (.zod "Duration must be a positive number")⟩
    | none => ⟨pre ++ [⟨"idb", tapArgs deviceId x y none⟩], .ok ()⟩

/-- Argument vector built by `type` (`commands/ui.ts` lines 70-74). -/
def typeArgs (deviceId text : String) : List String :=
  ["ui", "text", "--udid", deviceId, "--", text]

/-- `type` (`commands/ui.ts` lines 63-91): the text is validated before
the device is resolved. -/
def typeRun (text : String) (providedDevice : Option String) (env : DevEnv) : CmdOut :=
  match textInputParse text with
  | none => ⟨[], .error (.zod "Text must contain only ASCII printable characters")⟩
  | some validatedText =>
    let r := getDeviceId providedDevice env
    let pre := resolutionProcs r
    match r.result with
    | .error e => ⟨pre, .error (.sim e)⟩
    | .ok deviceId => ⟨pre ++ [⟨"idb", typeArgs deviceId validatedText⟩], .ok ()⟩

/-- The `buttonMap` table of `press` (`commands/ui.ts` lines 165-172),
keyed by the lowercased button name. -/
def buttonMap (deviceId : String) (lower : List Char) : Option (List String) :=
  if lower == "home".toList then some ["ui", "button", "--udid", deviceId, "--", "HOME"]
  else if lower == "lock".toList then some ["ui", "button", "--udid", deviceId, "--", "LOCK"]
  else if lower == "power".toList then some ["ui", "button", "--udid", deviceId, "--", "LOCK"]
  else if lower == "volume-up".toList then
    some ["ui", "button", "--udid", deviceId, "--", "VOLUME_UP"]
  else if lower == "volume-down".toList then
    some ["ui", "button", "--udid", deviceId, "--", "VOLUME_DOWN"]
  else if lower == "ringer".toList then some ["ui", "button", "--udid", deviceId, "--", "RINGER"]
  else none

/-- `press` (`commands/ui.ts` lines 145-193): lowercase the name,
validate it against the enumerated set (before device resolution), then
either take the combination path (screenshot via the device-control
utility) or the single-button path (idb UI bridge). -/
def pressRun (button : String) (providedDevice : Option String) (env : DevEnv) : CmdOut :=
  let lower := jsToLower button.toList
  if hardwareButtons.any (fun b => b.toList == lower) then
    let r := getDeviceId providedDevice env
    let pre := resolutionProcs r
    match r.result with
    | .error e => ⟨pre, .error (.sim e)⟩
    | .ok deviceId =>
      if occursIn "+".toList lower then
        let parts := splitChar '+' lower
        if parts.contains "home".toList && parts.contains "lock".toList then
          ⟨pre ++ [⟨"xcrun", ["simctl", "io", deviceId, "screenshot", "--type=png"]⟩], .ok ()⟩
        else
          ⟨pre, .error (.sim ⟨"Unsupported button combination: " ++ button,
            .invalidArguments, []⟩)⟩
      else
        match buttonMap deviceId lower with
        | some args => ⟨pre ++ [⟨"idb", args⟩], .ok ()⟩
        | none =>
          ⟨pre, .error (.sim ⟨"Unsupported button: " ++ button, .invalidArguments, []⟩)⟩
  else ⟨[], .error (.zod "Invalid enum value")⟩

/-! Filesystem model and path helpers.  Modelled from the spec: the
`utils/paths.ts` module is not among the provided sources (only its
unit tests are); per the spec and those tests, `fileExists` wraps
`fs.existsSync` and `isDirectory` wraps `fs.statSync().isDirectory()`,
so both are modelled as lookups in an explicit filesystem state. -/

structure FS where
  existingPaths : List String
  directories : List String

def fileExists (fs : FS) (p : String) : Bool := fs.existingPaths.contains p

def isDirectory (fs : FS) (p : String) : Bool := fs.directories.contains p

/-- `path.isAbsolute` on POSIX: the path starts with a slash. -/
def isAbsolute (p : String) : Bool :=
  match p.toList with
  | [] => false
  | c :: _ => c == '/'

/-- POSIX path normalization used by `path.resolve`: drop empty and
dot segments; a dot-dot segment pops the previously kept segment. -/
def normalizeSegments : List (List Char) → List (List Char) → List (List Char)
  | acc, [] => acc.reverse
  | acc, seg :: rest =>
    if seg == [] || seg == ".".toList then normalizeSegments acc rest
    else if seg == "..".toList then normalizeSegments (acc.drop 1) rest
    else normalizeSegments (seg :: acc) rest

def joinSegments : List (List Char) → List Char
  | [] => []
  | [s] => s
  | s :: rest => s ++ '/' :: joinSegments rest

/-- `path.resolve(cwd, p)` on POSIX for an absolute `cwd`. -/
def pathResolve (cwd p : String) : String :=
  let joined := if isAbsolute p then p.toList else cwd.toList ++ '/' :: p.toList
  String.mk ('/' :: joinSegments (normalizeSegments [] (splitChar '/' joined)))

/-- `path.extname` on POSIX, as a character list: the suffix of the
last path segment starting at its last dot, empty when the segment has
no dot or only a leading dot. -/
def lastDotIndex : List Char → Nat → Option Nat → Option Nat
  | [], _, best => best
  | c :: cs, i, best => lastDotIndex cs (i + 1) (if c == '.' then some i else best)

def extnameChars (p : String) : List Char :=
  let base := ((splitChar '/' p.toList).filter (fun s => !s.isEmpty)).getLastD []
  match lastDotIndex base 0 none with
  | none => []
  | some 0 => []
  | some i => base.drop i

/-! App commands, from `commands/app.ts` and the notification module. -/

/-- Argument vector of the install invocation
(`commands/app.ts` lines 52-54). -/
def installArgs (deviceId absolutePath : String) : List String :=
  ["simctl", "install", deviceId, absolutePath]

/-- Argument vector of the launch invocation
(`commands/app.ts` lines 88-94). -/
def launchArgs (deviceId bundleId : String) (terminate : Bool) : List String :=
  ["simctl", "launch"]
    ++ (if terminate then ["--terminate-running-process"] else [])
    ++ [deviceId, bundleId]

/-- Argument vector of the push invocation built by `sendNotification`
(notification module, around lines 100-105). -/
def sendNotificationArgs (deviceId bundleId tmpFile : String) : List String :=
  ["simctl", "push", deviceId, bundleId, tmpFile]

/-- `install` (`commands/app.ts` lines 14-73): resolve the device,
make the path absolute, check existence, check the extension, then
invoke `xcrun simctl install`.  The two inner extension checks sit, as
in the source, inside the branch where the lowercased extension is
neither `.app` nor `.ipa`. -/
def installRun (cwd appPath : String) (providedDevice : Option String) (env : DevEnv)
    (fs : FS) : CmdOut :=
  let r := getDeviceId providedDevice env
  let pre := resolutionProcs r
  match r.result with
  | .error e => ⟨pre, .error (.sim e)⟩
  | .ok deviceId =>
    let absolutePath := if isAbsolute appPath then appPath else pathResolve cwd appPath
    if !fileExists fs absolutePath then
      ⟨pre, .error (.sim ⟨"App bundle not found: " ++ absolutePath, .fileNotFound,
        ["Check the file path is correct", "Ensure the .app or .ipa file exists"]⟩)⟩
    else
      let ext := jsToLower (extnameChars absolutePath)
      let invalid : Option SimulatorError :=
        if ext != ".app".toList && ext != ".ipa".toList then
          if ext == ".app".toList && !isDirectory fs absolutePath then
            some ⟨"Invalid app bundle: .app should be a directory", .invalidArguments, []⟩
          else if ext != ".app".toList then
            some ⟨"Invalid app bundle: must be .app directory or .ipa file",
              .invalidArguments, []⟩
          else none
        else none
      match invalid with
      | some e => ⟨pre, .error (.sim e)⟩
      | none => ⟨pre ++ [⟨"xcrun", installArgs deviceId absolutePath⟩], .ok ()⟩

/-! Video recording, from `cli.ts`. -/

/-- Argument vector built by `record` (`cli.ts`): options are rendered
as `--flag=value` joined flags and the output path goes after the
end-of-options separator. -/
def recordArgs (deviceId : String) (codec display mask : Option String) (force : Bool)
    (outputPath : String) : List String :=
  ["simctl", "io", deviceId, "recordVideo"]
    ++ (match codec with | some c => ["--codec=" ++ c] | none => [])
    ++ (match display with | some d => ["--display=" ++ d] | none => [])
    ++ (match mask with | some m => ["--mask=" ++ m] | none => [])
    ++ (if force then ["--force"] else [])
    ++ ["--", outputPath]

/-- The wait window (milliseconds) of `record` before it optimistically
treats the recording as started, and the polling interval of its
confirmation loop. -/
def recordTimeoutMs : Nat := 3000

def recordPollIntervalMs : Nat := 100

/-- Snapshot of the background recording process observed by `record`
at the end of the wait window: whether the start confirmation was seen
on the error stream, whether the process has been terminated, and the
accumulated non-confirmation error-stream text. -/
structure RecordWait where
  recordingStarted : Bool
  processKilled : Bool
  errorOutput : String
deriving DecidableEq, Repr

/-- The stderr data handler of `record`: a chunk containing the
confirmation marks the recording as started, any other chunk is
appended to the captured error output. -/
def processStderrChunk (st : RecordWait) (chunk : String) : RecordWait :=
  if strIncludes chunk "Recording started" then { st with recordingStarted := true }
  else { st with errorOutput := st.errorOutput ++ chunk }

/-- The decision `record` takes when the wait window closes
(`cli.ts`, the promise around the 3000 ms timer): confirmed means
success; unconfirmed and terminated means failure carrying the captured
error text; unconfirmed but alive means optimistic success. -/
def recordWaitOutcome (st : RecordWait) : Except SimulatorError Unit :=
  if st.recordingStarted then .ok ()
  else if st.processKilled then
    .error ⟨"Recording process terminated unexpectedly: " ++ st.errorOutput,
      .generalError, []⟩
  else .ok ()

/-- The process-wide session state written after a successful start:
`SIM_CLI_RECORDING_PATH` and `SIM_CLI_RECORDING_PID`. -/
structure RecordingSession where
  recordingPath : Option String
  recordingPid : Option String
deriving DecidableEq, Repr

/-- Tail of `record` after the wait: on success the session state is
recorded in the process environment. -/
def recordFinish (st : RecordWait) (outputPath : String) (pid : Nat) :
    Except SimulatorError RecordingSession :=
  match recordWaitOutcome st with
  | .error e => .error e
  | .ok _ => .ok ⟨some outputPath, some (toString pid)⟩

/-! Recording stop, from `cli.ts` and `utils/executor.ts`. -/

/-- A rejected `execFile` promise: the exit code of the child (when it
ran) and the error message. -/
structure ProcFailure where
  code : Option Int
  message : String
deriving DecidableEq, Repr

/-- Outcome of the pkill invocation issued by `killProcess`: success
when at least one process matched, otherwise a rejection whose `code`
is 1 (pkill exits 1 when nothing matches, and prints nothing). -/
def pkillResult (anyMatched : Bool) (pattern : String) : Except ProcFailure Unit :=
  if anyMatched then .ok ()
  else .error ⟨some 1, "Command failed: pkill -SIGINT -f " ++ pattern⟩

/-- `killProcess` (`utils/executor.ts` lines 128-137): run pkill and
swallow the rejection exactly when its exit code is 1. -/
def killProcess (anyMatched : Bool) (pattern : String) : Except ProcFailure Unit :=
  match pkillResult anyMatched pattern with
  | .ok _ => .ok ()
  | .error e => if e.code != some 1 then .error e else .ok ()

/-- Observable outcome of `recordStop`: the saved-path report, the
generic stopped report, the no-active-recording report, or a re-thrown
error. -/
inductive StopOutcome
  | savedTo (path : String)
  | stoppedNoFile
  | noActiveRecording
  | raised (e : ProcFailure)
deriving DecidableEq, Repr

/-- `recordStop` (`cli.ts` lines 628-681): interrupt the recording
process by pattern, then report the saved path when the session state
names an existing file, else report a generic stop; in the catch
branch, an error whose message mentions `No matching processes` is
reported as no active recording, anything else is re-thrown. -/
def recordStop (anyMatched : Bool) (recordingPath : Option String) (fs : FS) :
    StopOutcome :=
  match killProcess anyMatched "simctl.*recordVideo" with
  | .ok _ =>
    match recordingPath with
    | some p => if fileExists fs p then .savedTo p else .stoppedNoFile
    | none => .stoppedNoFile
  | .error e =>
    if strIncludes e.message "No matching processes" then .noActiveRecording
    else .raised e

/-! Observation helpers and shared concrete inputs used by the
theorems below. -/

/-- The portion of an argument vector after its first end-of-options
separator, or `none` when the vector has no separator. -/
def afterSep : List String → Option (List String)
  | [] => none
  | a :: rest => if a == "--" then some rest else afterSep rest

/-- A syntactically valid simulator UDID (the example of
`utils/validator.ts`). -/
def udidA : String := "37A360EC-75F9-4AEC-8EFA-10F4A58D8CCA"

/-- A filesystem holding one regular (non-directory) entry named like
an app bundle. -/
def fsFakeApp : FS := ⟨["/Users/dev/Fake.app"], []⟩

/-! Helper lemmas. -/

theorem headMatch_iff (p : List Char) : ∀ s, headMatch p s = true ↔ ∃ t, s = p ++ t := by
  induction p with
  | nil => intro s; simp [headMatch]
  | cons a ps ih =>
    intro s
    cases s with
    | nil => simp [headMatch]
    | cons c cs =>
      simp only [headMatch, Bool.and_eq_true, beq_iff_eq, ih, List.cons_append,
        List.cons.injEq]
      constructor
      · rintro ⟨rfl, t, rfl⟩; exact ⟨t, rfl, rfl⟩
      · rintro ⟨t, rfl, rfl⟩; exact ⟨rfl, t, rfl⟩

theorem occursIn_iff (p : List Char) : ∀ s, occursIn p s = true ↔ ∃ u v, s = u ++ p ++ v := by
  intro s
  induction s with
  | nil =>
    simp only [occursIn, List.isEmpty_iff]
    constructor
    · rintro rfl; exact ⟨[], [], rfl⟩
    · rintro ⟨u, v, huv⟩
      rcases List.append_eq_nil.mp (List.append_eq_nil.mp huv.symm).1 with ⟨-, h2⟩
      exact h2
  | cons c cs ih =>
    simp only [occursIn, Bool.or_eq_true, headMatch_iff, ih]
    constructor
    · rintro (⟨t, ht⟩ | ⟨u, v, rfl⟩)
      · exact ⟨[], t, by simpa using ht⟩
      · exact ⟨c :: u, v, rfl⟩
    · rintro ⟨u, v, huv⟩
      cases u with
      | nil => exact Or.inl ⟨v, by simpa using huv⟩
      | cons x xs =>
        rw [List.cons_append, List.cons_append, List.cons.injEq] at huv
        exact Or.inr ⟨xs, v, huv.2⟩

theorem occursIn_trans {p q s : List Char} (h1 : occursIn p s = true)
    (h2 : occursIn q p = true) : occursIn q s = true := by
  rw [occursIn_iff] at h1 h2 ⊢
  obtain ⟨u, v, rfl⟩ := h1
  obtain ⟨a, b, rfl⟩ := h2
  exact ⟨u ++ a, b ++ v, by simp⟩

theorem validUDID_ne_empty {u : String} (h : validUDID u = true) : u ≠ "" := by
  intro heq
  subst heq
  exact absurd h (by decide)

theorem validUDID_ne_sep {u : String} (h : validUDID u = true) : u ≠ "--" := by
  intro heq
  subst heq
  exact absurd h (by decide)

theorem durationOk_ne_sep {d : String} (h : durationOk d = true) : d ≠ "--" := by
  intro heq
  subst heq
  exact absurd h (by decide)

theorem afterSep_append_sep (pre rest : List String) (h : ∀ a ∈ pre, a ≠ "--") :
    afterSep (pre ++ "--" :: rest) = some rest := by
  induction pre with
  | nil => simp [afterSep]
  | cons a l ih =>
    have ha : (a == "--") = false := by
      simpa using h a (by simp)
    simp only [List.cons_append, afterSep, ha, Bool.false_eq_true, if_false]
    exact ih (fun x hx => h x (by simp [hx]))

theorem afterSep_eq_none (l : List String) (h : ∀ a ∈ l, a ≠ "--") :
    afterSep l = none := by
  induction l with
  | nil => rfl
  | cons a rest ih =>
    have ha : (a == "--") = false := by
      simpa using h a (by simp)
    simp only [afterSep, ha, Bool.false_eq_true, if_false]
    exact ih (fun x hx => h x (by simp [hx]))

theorem append_ne_sep {pfx c : String} (hl : 2 < pfx.length) : pfx ++ c ≠ "--" := by
  intro heq
  have hlen := congrArg String.length heq
  rw [String.length_append] at hlen
  have h2 : ("--" : String).length = 2 := rfl
  rw [h2] at hlen
  omega

/-! Claim theorems. -/

/-- C1, counterexample: the `simctl install` and `simctl push` vectors
place the user-supplied app path and bundle identifier positionally,
with no end-of-options separator anywhere in the vector, refuting the
claim that every user-supplied value sits after an explicit `--`. -/
theorem install_vector_lacks_separator :
    (installRun "/" "/Users/dev/MyApp.app" (some udidA) ⟨none, []⟩
        ⟨["/Users/dev/MyApp.app"], ["/Users/dev/MyApp.app"]⟩).procs =
      [⟨"xcrun", ["simctl", "install", udidA, "/Users/dev/MyApp.app"]⟩] ∧
    "/Users/dev/MyApp.app" ∈ installArgs udidA "/Users/dev/MyApp.app" ∧
    "--" ∉ installArgs udidA "/Users/dev/MyApp.app" ∧
    "com.example.app" ∈ sendNotificationArgs udidA "com.example.app" "/tmp/n.json" ∧
    "--" ∉ sendNotificationArgs udidA "com.example.app" "/tmp/n.json" := by
  exact ⟨by decide, by decide, by decide, by decide, by decide⟩

/-- C1, amended: user-supplied values in the idb UI-bridge vectors
(tap coordinates, typed text) and the output path of the recording
vector appear after the first `--` of the vector, while the
`simctl install`, `simctl launch` and `simctl push` vectors contain no
separator at all and carry the user-supplied path or bundle identifier
positionally. -/
theorem separator_discipline_by_family :
    (∀ (D : String) (x y : Nat), validUDID D = true →
      afterSep (tapArgs D x y none) = some [toString x, toString y]) ∧
    (∀ (D d : String) (x y : Nat), validUDID D = true → durationOk d = true →
      afterSep (tapArgs D x y (some d)) = some [toString x, toString y]) ∧
    (∀ D t : String, validUDID D = true → afterSep (typeArgs D t) = some [t]) ∧
    (∀ (D : String) (codec display mask : Option String) (force : Bool) (out : String),
      validUDID D = true →
      afterSep (recordArgs D codec display mask force out) = some [out]) ∧
    (∀ D p : String, validUDID D = true → p ≠ "--" →
      afterSep (installArgs D p) = none ∧ p ∈ installArgs D p) ∧
    (∀ (D b : String) (term : Bool), validUDID D = true → b ≠ "--" →
      afterSep (launchArgs D b term) = none ∧ b ∈ launchArgs D b term) ∧
    (∀ D b f : String, validUDID D = true → b ≠ "--" → f ≠ "--" →
      afterSep (sendNotificationArgs D b f) = none ∧ b ∈ sendNotificationArgs D b f) := by
  refine ⟨?_, ?_, ?_, ?_, ?_, ?_, ?_⟩
  · intro D x y hD
    have heq : tapArgs D x y none =
        ["ui", "tap", "--udid", D, "--json"] ++ "--" :: [toString x, toString y] := rfl
    rw [heq]
    apply afterSep_append_sep
    intro a ha
    simp at ha
    rcases ha with rfl | rfl | rfl | rfl | rfl <;> first | decide | exact validUDID_ne_sep hD
  · intro D d x y hD hd
    have heq : tapArgs D x y (some d) =
        (["ui", "tap", "--udid", D, "--json"] ++ ["--duration", d]) ++
          "--" :: [toString x, toString y] := rfl
    rw [heq]
    apply afterSep_append_sep
    intro a ha
    simp at ha
    rcases ha with rfl | rfl | rfl | rfl | rfl | rfl | rfl <;>
      first | decide | exact validUDID_ne_sep hD | exact durationOk_ne_sep hd
  · intro D t hD
    have heq : typeArgs D t = ["ui", "text", "--udid", D] ++ "--" :: [t] := rfl
    rw [heq]
    apply afterSep_append_sep
    intro a ha
    simp at ha
    rcases ha with rfl | rfl | rfl | rfl <;> first | decide | exact validUDID_ne_sep hD
  · intro D codec display mask force out hD
    have heq : recordArgs D codec display mask force out =
        (["simctl", "io", D, "recordVideo"]
          ++ (match codec with | some c => ["--codec=" ++ c] | none => [])
          ++ (match display with | some d => ["--display=" ++ d] | none => [])
          ++ (match mask with | some m => ["--mask=" ++ m] | none => [])
          ++ (if force then ["--force"] else [])) ++ "--" :: [out] := rfl
    rw [heq]
    apply afterSep_append_sep
    intro a ha
    simp only [List.append_assoc, List.mem_append] at ha
    rcases ha with ha | ha | ha | ha | ha
    · simp at ha
      rcases ha with rfl | rfl | rfl | rfl <;> first | decide | exact validUDID_ne_sep hD
    · cases codec with
      | none => simp at ha
      | some c =>
        simp at ha
        subst ha
        exact append_ne_sep (by decide)
    · cases display with
      | none => simp at ha
      | some d =>
        simp at ha
        subst ha
        exact append_ne_sep (by decide)
    · cases mask with
      | none => simp at ha
      | some m =>
        simp at ha
        subst ha
        exact append_ne_sep (by decide)
    · cases force with
      | false => simp at ha
      | true =>
        simp at ha
        subst ha
        decide
  · intro D p hD hp
    refine ⟨afterSep_eq_none _ ?_, by simp [installArgs]⟩
    intro a ha
    simp [installArgs] at ha
    rcases ha with rfl | rfl | rfl | rfl <;>
      first | decide | exact validUDID_ne_sep hD | exact hp
  · intro D b term hD hb
    constructor
    · apply afterSep_eq_none
      intro a ha
      cases term <;> simp [launchArgs] at ha <;>
        rcases ha with rfl | rfl | rfl | rfl | rfl <;>
          first | decide | exact validUDID_ne_sep hD | exact hb
    · cases term <;> simp [launchArgs]
  · intro D b f hD hb hf
    refine ⟨afterSep_eq_none _ ?_, by simp [sendNotificationArgs]⟩
    intro a ha
    simp [sendNotificationArgs] at ha
    rcases ha with rfl | rfl | rfl | rfl | rfl <;>
      first | decide | exact validUDID_ne_sep hD | exact hb | exact hf

/-- C1, witness for the amended theorem at concrete inputs. -/
theorem separator_discipline_witness :
    afterSep (tapArgs udidA 100 200 none) = some ["100", "200"] ∧
    afterSep (installArgs udidA "/Users/dev/MyApp.app") = none := by
  constructor
  · exact separator_discipline_by_family.1 udidA 100 200 (by decide)
  · exact (separator_discipline_by_family.2.2.2.2.1 udidA "/Users/dev/MyApp.app"
      (by decide) (by decide)).1

/-- C2: a message containing the substring of the command-not-found
class is classified by the earlier not-found check, so it maps to
FileNotFound (exit code 6) rather than CommandNotFound (127), and no
message at all can reach the CommandNotFound classification. -/
theorem command_not_found_shadowed :
    strIncludes "zsh: idb: command not found" "command not found" = true ∧
    handleError (.err "zsh: idb: command not found") =
      ⟨.fileNotFound, "zsh: idb: command not found", []⟩ ∧
    ErrorCode.toNat .fileNotFound = 6 ∧
    ErrorCode.toNat .commandNotFound = 127 ∧
    (∀ m : String, strIncludes m "command not found" = true →
      (handleError (.err m)).exitCode ≠ .commandNotFound) := by
  refine ⟨by decide, by decide, rfl, rfl, ?_⟩
  intro m hm
  have hnf : occursIn "not found".toList m.toList = true :=
    occursIn_trans hm (by decide)
  simp only [handleError, strIncludes]
  split_ifs with h1 h2 h3 h4 h5 <;> simp_all

/-- C2, witness: the shadowing at a concrete message. -/
theorem command_not_found_shadowed_witness :
    (handleError (.err "idb: command not found")).exitCode ≠ .commandNotFound :=
  command_not_found_shadowed.2.2.2.2 "idb: command not found" (by decide)

/-- C3: a nonexistent path fails with FileNotFound and no spawn, but an
existing regular (non-directory) file ending in `.app` passes the
extension checks unscathed and the install process is spawned, because
the directory check sits inside the branch where the extension is not
`.app`. -/
theorem install_app_regular_file_spawns :
    isDirectory fsFakeApp "/Users/dev/Fake.app" = false ∧
    fileExists fsFakeApp "/Users/dev/Fake.app" = true ∧
    (installRun "/" "/Users/dev/Fake.app" (some udidA) ⟨none, []⟩ fsFakeApp).result = .ok () ∧
    (installRun "/" "/Users/dev/Fake.app" (some udidA) ⟨none, []⟩ fsFakeApp).procs =
      [⟨"xcrun", ["simctl", "install", udidA, "/Users/dev/Fake.app"]⟩] ∧
    (installRun "/" "/Users/dev/Missing.app" (some udidA) ⟨none, []⟩ fsFakeApp).result =
      .error (.sim ⟨"App bundle not found: /Users/dev/Missing.app", .fileNotFound,
        ["Check the file path is correct", "Ensure the .app or .ipa file exists"]⟩) ∧
    (installRun "/" "/Users/dev/Missing.app" (some udidA) ⟨none, []⟩ fsFakeApp).procs = [] := by
  exact ⟨by decide, by decide, rfl, by decide, rfl, by decide⟩

/-- C4: when no recording process matches, pkill exits 1, `killProcess`
swallows that rejection, and `recordStop` reports a plain successful
stop; the no-active-recording report (and any re-thrown error) is
unreachable for every input. -/
theorem recordStop_no_match_generic :
    recordStop false none ⟨[], []⟩ = .stoppedNoFile ∧
    (∀ (m : Bool) (r : Option String) (f : FS) (e : ProcFailure),
      recordStop m r f ≠ .raised e) ∧
    (∀ (m : Bool) (r : Option String) (f : FS),
      recordStop m r f ≠ .noActiveRecording) ∧
    StopOutcome.stoppedNoFile ≠ StopOutcome.noActiveRecording := by
  refine ⟨by decide, ?_, ?_, by decide⟩
  · intro m r f e
    cases m <;> cases r <;> simp [recordStop, killProcess, pkillResult] <;> split <;> simp
  · intro m r f
    cases m <;> cases r <;> simp [recordStop, killProcess, pkillResult] <;> split <;> simp

/-- C4, witness: the unreachable no-active-recording report at a
concrete input. -/
theorem recordStop_no_match_generic_witness :
    recordStop false (some "/tmp/v.mp4") ⟨[], []⟩ ≠ .noActiveRecording :=
  recordStop_no_match_generic.2.2.1 false (some "/tmp/v.mp4") ⟨[], []⟩

/-- C5: a format-valid explicit UDID is returned as-is with no device
list query regardless of the rest of the environment (hence twice the
same identifier, never querying); with no explicit argument a valid
environment default is returned the same way; with neither, the device
list is queried and an unbooted list yields the SimulatorNotFound error
(exit code 3) with remediation hints. -/
theorem getDeviceId_resolution_order :
    (∀ (u : String) (env₁ env₂ : DevEnv), validUDID u = true →
      getDeviceId (some u) env₁ = ⟨.ok u, false⟩ ∧
      getDeviceId (some u) env₂ = ⟨.ok u, false⟩) ∧
    (∀ (v : String) (devices : List (String × List DeviceRecord)), validUDID v = true →
      getDeviceId none ⟨some v, devices⟩ = ⟨.ok v, false⟩) ∧
    (∀ devices : List (String × List DeviceRecord), findBooted devices = none →
      getDeviceId none ⟨none, devices⟩ =
        ⟨.error ⟨"No simulator is currently booted", .simulatorNotFound,
          ["Open Simulator.app", "Run: sim-cli open",
           "Specify a device with --device <udid>"]⟩, true⟩ ∧
      ErrorCode.toNat .simulatorNotFound = 3) := by
  refine ⟨?_, ?_, ?_⟩
  · intro u e1 e2 h
    have hne : u ≠ "" := validUDID_ne_empty h
    constructor <;> simp [getDeviceId, jsTruthy, hne, h]
  · intro v devices h
    have hne : v ≠ "" := validUDID_ne_empty h
    simp [getDeviceId, jsTruthy, hne, h]
  · intro devices h
    exact ⟨by simp [getDeviceId, jsTruthy, getBootedDevice, h], rfl⟩

/-- C5, witness at a concrete valid UDID and an empty device list. -/
theorem getDeviceId_resolution_order_witness :
    getDeviceId (some udidA) ⟨none, []⟩ = ⟨.ok udidA, false⟩ ∧
    getDeviceId none ⟨some udidA, []⟩ = ⟨.ok udidA, false⟩ ∧
    (getDeviceId none ⟨none, []⟩).queriedList = true := by
  refine ⟨(getDeviceId_resolution_order.1 udidA ⟨none, []⟩ ⟨none, []⟩ (by decide)).1,
    getDeviceId_resolution_order.2.1 udidA [] (by decide), ?_⟩
  rw [(getDeviceId_resolution_order.2.2 [] rfl).1]

/-- C6: with the device resolved to D and no options, tap at
(100, 200) issues exactly one idb invocation carrying the argument
vector ui tap, the udid flag with D, the json flag, the separator, and
the two rendered coordinates, in that order. -/
theorem tap_invocation_vector (dev : Option String) (env : DevEnv) (D : String)
    (h : (getDeviceId dev env).result = .ok D) :
    tapRun 100 200 none dev env =
      ⟨resolutionProcs (getDeviceId dev env) ++
        [⟨"idb", ["ui", "tap", "--udid", D, "--json", "--", "100", "200"]⟩], .ok ()⟩ := by
  have h1 : toString (100 : Nat) = "100" := rfl
  have h2 : toString (200 : Nat) = "200" := rfl
  simp [tapRun, h, tapArgs, h1, h2]

/-- C6, witness at a concrete explicit device. -/
theorem tap_invocation_vector_witness :
    tapRun 100 200 none (some udidA) ⟨none, []⟩ =
      ⟨[⟨"idb", ["ui", "tap", "--udid", udidA, "--json", "--", "100", "200"]⟩], .ok ()⟩ :=
  tap_invocation_vector (some udidA) ⟨none, []⟩ udidA rfl

/-- C7, counterexample: the empty string has every character in the
printable range (vacuously) and length at most 500, yet text
validation rejects it, because the anchored regex requires at least one
character. -/
theorem textInput_rejects_empty_printable :
    ("" : String).length ≤ 500 ∧
    (∀ c ∈ ("" : String).toList, isPrintableAscii c = true) ∧
    textInputParse "" = none := by decide

/-- C7, amended: text validation returns the input unchanged exactly
when it is nonempty, at most 500 characters long, and every character
lies in the ASCII printable range 0x20 to 0x7E. -/
theorem textInput_accepts_iff (s : String) :
    textInputParse s = some s ↔
      (s.toList ≠ [] ∧ s.length ≤ 500 ∧ ∀ c ∈ s.toList, isPrintableAscii c = true) := by
  have hcond : (s.length ≤ 500 && (!s.toList.isEmpty && s.toList.all isPrintableAscii)) = true ↔
      (s.toList ≠ [] ∧ s.length ≤ 500 ∧ ∀ c ∈ s.toList, isPrintableAscii c = true) := by
    cases hl : s.toList with
    | nil => simp [hl]
    | cons c cs => simp [hl, List.all_eq_true]
  unfold textInputParse
  by_cases h : (s.length ≤ 500 && (!s.toList.isEmpty && s.toList.all isPrintableAscii)) = true
  · rw [if_pos h]
    exact iff_of_true rfl (hcond.mp h)
  · rw [if_neg h]
    exact iff_of_false (by simp) (fun hp => h (hcond.mpr hp))

/-- C7, witness: a short printable string is accepted unchanged. -/
theorem textInput_accepts_iff_witness : textInputParse "hello" = some "hello" :=
  (textInput_accepts_iff "hello").mpr (by decide)

/-- C8: pressing the home-lock combination, in any letter case, runs
the device-control screenshot action and never the idb UI bridge,
while any name outside the enumerated button set is rejected by
validation with no process spawned; the concrete name back lies
outside the set. -/
theorem press_home_lock_and_validation :
    (∀ (dev : Option String) (env : DevEnv) (D : String),
      (getDeviceId dev env).result = .ok D →
      pressRun "HOME+LOCK" dev env = pressRun "home+lock" dev env ∧
      pressRun "home+lock" dev env =
        ⟨resolutionProcs (getDeviceId dev env) ++
          [⟨"xcrun", ["simctl", "io", D, "screenshot", "--type=png"]⟩], .ok ()⟩ ∧
      ∀ p ∈ (pressRun "home+lock" dev env).procs, p.cmd ≠ "idb") ∧
    (∀ (b : String) (dev : Option String) (env : DevEnv),
      (hardwareButtons.any fun x => x.toList == jsToLower b.toList) = false →
      pressRun b dev env = ⟨[], .error (.zod "Invalid enum value")⟩) ∧
    (hardwareButtons.any fun x => x.toList == jsToLower "back".toList) = false := by
  refine ⟨?_, ?_, by decide⟩
  · intro dev env D h
    have c1 : (hardwareButtons.any fun b => b.toList == jsToLower "home+lock".toList) = true := by
      decide
    have c2 : (hardwareButtons.any fun b => b.toList == jsToLower "HOME+LOCK".toList) = true := by
      decide
    have o1 : occursIn "+".toList (jsToLower "home+lock".toList) = true := by decide
    have o2 : occursIn "+".toList (jsToLower "HOME+LOCK".toList) = true := by decide
    have k1 : ((splitChar '+' (jsToLower "home+lock".toList)).contains "home".toList &&
        (splitChar '+' (jsToLower "home+lock".toList)).contains "lock".toList) = true := by decide
    have k2 : ((splitChar '+' (jsToLower "HOME+LOCK".toList)).contains "home".toList &&
        (splitChar '+' (jsToLower "HOME+LOCK".toList)).contains "lock".toList) = true := by decide
    have key : pressRun "home+lock" dev env =
        ⟨resolutionProcs (getDeviceId dev env) ++
          [⟨"xcrun", ["simctl", "io", D, "screenshot", "--type=png"]⟩], .ok ()⟩ := by
      simp only [pressRun]
      rw [h, c1, o1]
      simp only [if_true]
      rw [k1]
      simp
    have key2 : pressRun "HOME+LOCK" dev env =
        ⟨resolutionProcs (getDeviceId dev env) ++
          [⟨"xcrun", ["simctl", "io", D, "screenshot", "--type=png"]⟩], .ok ()⟩ := by
      simp only [pressRun]
      rw [h, c2, o2]
      simp only [if_true]
      rw [k2]
      simp
    refine ⟨key2.trans key.symm, key, ?_⟩
    intro p hp
    rw [key] at hp
    simp only [List.mem_append, List.mem_singleton] at hp
    rcases hp with hp | hp
    · unfold resolutionProcs at hp
      split at hp
      · simp only [List.mem_singleton] at hp
        subst hp
        simp [listDevicesProc]
      · simp at hp
    · subst hp
      simp
  · intro b dev env hb
    simp only [pressRun]
    rw [hb]
    simp

/-- C8, witness at a concrete explicit device. -/
theorem press_home_lock_witness :
    pressRun "home+lock" (some udidA) ⟨none, []⟩ =
      ⟨[⟨"xcrun", ["simctl", "io", udidA, "screenshot", "--type=png"]⟩], .ok ()⟩ ∧
    pressRun "back" (some udidA) ⟨none, []⟩ = ⟨[], .error (.zod "Invalid enum value")⟩ := by
  constructor
  · exact (press_home_lock_and_validation.1 (some udidA) ⟨none, []⟩ udidA rfl).2.1
  · exact press_home_lock_and_validation.2.1 "back" (some udidA) ⟨none, []⟩ (by decide)

/-- C9: the wait window is 3000 milliseconds; at its close the start
fails exactly when the process is terminated without having confirmed,
the failure message carries the captured error-stream text, and a
process that neither confirmed nor terminated is optimistically
treated as started with the session (path and pid) recorded in
process-wide state; a confirmation chunk on the error stream marks the
recording started and every other chunk accumulates into the captured
text. -/
theorem record_wait_window :
    recordTimeoutMs = 3000 ∧
    (∀ (st : RecordWait) (outputPath : String) (pid : Nat),
      ((∃ e, recordFinish st outputPath pid = .error e) ↔
        st.processKilled = true ∧ st.recordingStarted = false) ∧
      (∀ e, recordFinish st outputPath pid = .error e →
        e.message = "Recording process terminated unexpectedly: " ++ st.errorOutput) ∧
      (st.recordingStarted = false → st.processKilled = false →
        recordFinish st outputPath pid = .ok ⟨some outputPath, some (toString pid)⟩)) ∧
    (∀ (st : RecordWait) (chunk : String),
      (strIncludes chunk "Recording started" = true →
        processStderrChunk st chunk = { st with recordingStarted := true }) ∧
      (strIncludes chunk "Recording started" = false →
        processStderrChunk st chunk = { st with errorOutput := st.errorOutput ++ chunk })) := by
  refine ⟨rfl, ?_, ?_⟩
  · rintro ⟨rs, pk, eo⟩ outputPath pid
    cases rs <;> cases pk <;>
      simp [recordFinish, recordWaitOutcome]
  · intro st chunk
    constructor <;> intro h <;> simp [processStderrChunk, h]

/-- C9, witness: an unconfirmed but alive process is recorded as a
session, and a confirmation chunk marks the start. -/
theorem record_wait_window_witness :
    recordFinish ⟨false, false, ""⟩ "/tmp/rec.mp4" 42 = .ok ⟨some "/tmp/rec.mp4", some "42"⟩ ∧
    processStderrChunk ⟨false, false, ""⟩ "xx Recording started yy" = ⟨true, false, ""⟩ := by
  constructor
  · exact (record_wait_window.2.1 ⟨false, false, ""⟩ "/tmp/rec.mp4" 42).2.2 rfl rfl
  · exact (record_wait_window.2.2 ⟨false, false, ""⟩ "xx Recording started yy").1 (by decide)

/-- C10: the button map sends both power and lock to the same
UI-bridge vector ending in LOCK, so pressing power and pressing lock
are the same observable operation: same spawned invocations, same
result, for every device argument and environment. -/
theorem press_power_lock_equivalent :
    (∀ (dev : Option String) (env : DevEnv),
      pressRun "power" dev env = pressRun "lock" dev env) ∧
    (∀ D : String,
      buttonMap D (jsToLower "power".toList) =
        some ["ui", "button", "--udid", D, "--", "LOCK"] ∧
      buttonMap D (jsToLower "lock".toList) =
        some ["ui", "button", "--udid", D, "--", "LOCK"]) := by
  constructor
  · intro dev env
    have c1 : (hardwareButtons.any fun b => b.toList == jsToLower "power".toList) = true := by
      decide
    have c2 : (hardwareButtons.any fun b => b.toList == jsToLower "lock".toList) = true := by
      decide
    have o1 : occursIn "+".toList (jsToLower "power".toList) = false := by decide
    have o2 : occursIn "+".toList (jsToLower "lock".toList) = false := by decide
    cases h : (getDeviceId dev env).result with
    | error e =>
      simp only [pressRun]
      rw [h, c1, c2]
    | ok D =>
      have bmP : buttonMap D (jsToLower ['p', 'o', 'w', 'e', 'r']) =
        some ["ui", "button", "--udid", D, "--", "LOCK"] := rfl
      have bmL : buttonMap D (jsToLower ['l', 'o', 'c', 'k']) =
        some ["ui", "button", "--udid", D, "--", "LOCK"] := rfl
      simp only [pressRun]
      rw [h, c1, c2, o1]
      simp only [if_true]
      rw [o2]
      simp [bmP, bmL]
  · intro D
    constructor <;> rfl

end SimCli
